import Mathlib

/-!
Verification of the bot orchestration core of this repository.

The definitions below are shallow embeddings of the Python sources:
  backend/bot_core.py          (class BotCore)
  backend/bot_manager.py       (classes SimpleBotManager, BatchFirebaseUpdater)
  backend/services/binance_client.py
                               (classes BinanceRateLimiter, PriceManager, BinanceClient)
Python floats are modelled as rationals (ℚ), dicts as association lists,
and fallible venue calls as explicit oracle parameters.  Stateful methods
become pure state-transition functions.  Each claim of the specification is
settled by one theorem about these definitions.
-/

namespace BotCore

/-- `BotCore._format_quantity` (bot_core.py, lines 1001-1006): floor a raw
quantity to `quantity_precision` decimal places; at precision 0 take the
plain floor. -/
def format_quantity (quantity_precision : ℕ) (quantity : ℚ) : ℚ :=
  if quantity_precision = 0 then (⌊quantity⌋ : ℚ)
  else (⌊quantity * 10 ^ quantity_precision⌋ : ℚ) / 10 ^ quantity_precision

/-- From `BotCore.__init__`: `use_percentage_mode = (raw_order_size == 0)`. -/
def use_percentage_mode (raw_order_size : ℚ) : Bool := raw_order_size == 0

/-- From `BotCore.__init__`: `percentage_to_use = 90`. -/
def percentage_to_use : ℚ := 90

/-- From `BotCore.__init__`: the fixed amount is the user-supplied size when
positive, 35 USDT otherwise. -/
def fixed_order_size (raw_order_size : ℚ) : ℚ :=
  if raw_order_size > 0 then raw_order_size else 35

/-- The notional (`order_size_usdt`) computed at the top of
`BotCore._calculate_dynamic_order_size` (bot_core.py, lines 545-553):
90 percent of the balance in percentage mode, the fixed amount otherwise. -/
def order_size_usdt (percentage_mode : Bool) (fixed_size balance : ℚ) : ℚ :=
  if percentage_mode then balance * (percentage_to_use / 100) else fixed_size

/-- `BotCore._calculate_dynamic_order_size` (bot_core.py, lines 538-565):
quantity = notional * leverage / entry_price, then formatted by
`_format_quantity`. -/
def calculate_dynamic_order_size (percentage_mode : Bool) (fixed_size : ℚ)
    (quantity_precision : ℕ) (balance leverage entry_price : ℚ) : ℚ :=
  format_quantity quantity_precision
    (order_size_usdt percentage_mode fixed_size balance * leverage / entry_price)

theorem format_quantity_eq_floor (p : ℕ) (q : ℚ) :
    format_quantity p q = (⌊q * 10 ^ p⌋ : ℚ) / 10 ^ p := by
  unfold format_quantity
  rcases Nat.eq_zero_or_pos p with hp | hp
  · subst hp; simp
  · rw [if_neg (Nat.pos_iff_ne_zero.mp hp)]

/-- C1: order sizing.  In percentage mode the notional is 0.90 * balance; in
fixed mode it is the configured fixed amount, independent of the balance.
The order quantity equals notional * leverage / entry_price floored to the
venue quantity precision.  Percentage mode with balance 1000 yields notional
900; fixed mode with configured amount 35 yields notional 35. -/
theorem claim_order_sizing (b L p f : ℚ) (prec : ℕ) (hp : 0 < p) :
    order_size_usdt true f b = (90 / 100) * b
    ∧ order_size_usdt false f b = f
    ∧ calculate_dynamic_order_size true f prec b L p
        = (⌊order_size_usdt true f b * L / p * 10 ^ prec⌋ : ℚ) / 10 ^ prec
    ∧ calculate_dynamic_order_size false f prec b L p
        = (⌊f * L / p * 10 ^ prec⌋ : ℚ) / 10 ^ prec
    ∧ order_size_usdt true f 1000 = 900
    ∧ order_size_usdt false 35 b = 35 := by
  refine ⟨?_, rfl, ?_, ?_, ?_, rfl⟩
  · simp only [order_size_usdt, percentage_to_use, if_true]
    ring
  · rw [calculate_dynamic_order_size, format_quantity_eq_floor]
  · rw [calculate_dynamic_order_size, format_quantity_eq_floor]
    rfl
  · simp only [order_size_usdt, percentage_to_use, if_true]
    norm_num

theorem claim_order_sizing_witness :
    order_size_usdt true 35 1000 = 900
    ∧ calculate_dynamic_order_size true 35 3 1000 10 50000
        = (⌊order_size_usdt true 35 1000 * 10 / 50000 * 10 ^ 3⌋ : ℚ) / 10 ^ 3 := by
  have h := claim_order_sizing 1000 10 50000 35 3 (by norm_num)
  exact ⟨h.2.2.2.2.1, h.2.2.1⟩

/-- Position side held by an agent (`status["position_side"]`), `none` when flat. -/
inductive Side where
  | long
  | short
  deriving DecidableEq, Repr

/-- The fields of `BotCore` touched by the balance circuit breaker
(bot_core.py, lines 48-93 and 188-250). -/
structure BotState where
  insufficient_balance_count : ℕ
  is_running : Bool
  position_side : Option Side
  balance_sufficient : Bool
  account_balance : ℚ
  last_balance_check : ℚ
  entry_price : ℚ
  unrealized_pnl : ℚ
  total_pnl : ℚ
  consecutive_losses : ℕ
  min_balance_usdt : ℚ
  deriving DecidableEq, Repr

/-- `balance_check_interval = 120` (bot_core.py, line 90). -/
def balance_check_interval : ℚ := 120

/-- `max_insufficient_balance = 3` (bot_core.py, line 93). -/
def max_insufficient_balance : ℕ := 3

/-- `BotCore._close_position` (bot_core.py, lines 730-798).  The venue is an
oracle: `venue_position_amt` is the position amount the venue reports
(`none` models an empty open-positions list), `close_ok` whether the
reduce-only close order succeeds, `pnl` the realized PnL of the closing
fill.  Returns the new state and the method's boolean result. -/
def close_position (venue_position_amt : Option ℚ) (close_ok : Bool) (pnl : ℚ)
    (s : BotState) : BotState × Bool :=
  if s.position_side = none then (s, false)
  else
    match venue_position_amt with
    | none => ({ s with position_side := none }, true)
    | some amt =>
      if amt = 0 then ({ s with position_side := none }, true)
      else if close_ok then
        ({ s with position_side := none, entry_price := 0, unrealized_pnl := 0,
                  total_pnl := s.total_pnl + pnl,
                  consecutive_losses :=
                    if pnl < 0 then s.consecutive_losses + 1 else 0 }, true)
      else (s, false)

/-- `BotCore._stop_due_to_insufficient_balance` (bot_core.py, lines 230-250):
close the current position if any, then mark the bot not running.  The final
`await self.stop()` is a no-op on the shutdown flags because `is_running` is
already false at that point, and the Firebase update does not change the
local state. -/
def stop_due_to_insufficient_balance (venue_position_amt : Option ℚ)
    (close_ok : Bool) (pnl : ℚ) (s : BotState) : BotState :=
  let s1 := if s.position_side ≠ none
              then (close_position venue_position_amt close_ok pnl s).1 else s
  { s1 with is_running := false }

/-- `BotCore._check_balance_sufficient` (bot_core.py, lines 188-228).
`now` is the current time and `balance` the reading returned by
`get_account_balance(use_cache=False)`; a call within
`balance_check_interval` of the previous one returns the cached flag
without reading.  Returns the new state and the method's boolean result. -/
def check_balance_sufficient (now balance : ℚ) (venue_position_amt : Option ℚ)
    (close_ok : Bool) (pnl : ℚ) (s : BotState) : BotState × Bool :=
  if now - s.last_balance_check < balance_check_interval then
    (s, s.balance_sufficient)
  else
    let s1 := { s with account_balance := balance, last_balance_check := now }
    if balance < s1.min_balance_usdt then
      let s2 := { s1 with insufficient_balance_count := s1.insufficient_balance_count + 1,
                          balance_sufficient := false }
      if s2.insufficient_balance_count ≥ max_insufficient_balance then
        (stop_due_to_insufficient_balance venue_position_amt close_ok pnl s2, false)
      else (s2, false)
    else
      ({ s1 with balance_sufficient := true, insufficient_balance_count := 0 }, true)

theorem stop_due_clears (va : Option ℚ) (ok : Bool) (pnl : ℚ) (s : BotState)
    (h : va = some 0 ∨ va = none ∨ ok = true) :
    (stop_due_to_insufficient_balance va ok pnl s).is_running = false
    ∧ (stop_due_to_insufficient_balance va ok pnl s).position_side = none := by
  unfold stop_due_to_insufficient_balance
  rcases hside : s.position_side with _ | side
  · rw [if_neg (by simp [hside])]
    exact ⟨rfl, hside⟩
  · rw [if_pos (by simp [hside])]
    refine ⟨rfl, ?_⟩
    unfold close_position
    rw [if_neg (by simp [hside])]
    rcases h with hva | hva | hok
    · subst hva
      simp
    · subst hva
      simp
    · subst hok
      rcases va with _ | amt
      · simp
      · by_cases hamt : amt = 0
        · simp [hamt]
        · simp [hamt]

/-- C2: balance circuit breaker.  Any single real reading at or above the
minimum resets the consecutive-insufficient counter to 0 and leaves the
running flag untouched; a below-minimum reading followed by a sufficient one
leaves the counter at 0 and the agent running; three consecutive real
readings below the minimum force the open position closed and set
`is_running` to false. -/
theorem claim_balance_circuit_breaker :
    (∀ s now b va ok pnl, balance_check_interval ≤ now - s.last_balance_check
      → s.min_balance_usdt ≤ b
      → (check_balance_sufficient now b va ok pnl s).1.insufficient_balance_count = 0
        ∧ (check_balance_sufficient now b va ok pnl s).1.balance_sufficient = true
        ∧ (check_balance_sufficient now b va ok pnl s).1.is_running = s.is_running
        ∧ (check_balance_sufficient now b va ok pnl s).2 = true)
    ∧ (∀ s now1 now2 b1 b2 va ok pnl, s.insufficient_balance_count = 0
      → s.is_running = true
      → balance_check_interval ≤ now1 - s.last_balance_check
      → balance_check_interval ≤ now2 - now1
      → b1 < s.min_balance_usdt → s.min_balance_usdt ≤ b2
      → (check_balance_sufficient now2 b2 va ok pnl
          (check_balance_sufficient now1 b1 va ok pnl s).1).1.insufficient_balance_count = 0
        ∧ (check_balance_sufficient now2 b2 va ok pnl
            (check_balance_sufficient now1 b1 va ok pnl s).1).1.is_running = true)
    ∧ (∀ s now1 now2 now3 b1 b2 b3 va ok pnl, s.insufficient_balance_count = 0
      → balance_check_interval ≤ now1 - s.last_balance_check
      → balance_check_interval ≤ now2 - now1
      → balance_check_interval ≤ now3 - now2
      → b1 < s.min_balance_usdt → b2 < s.min_balance_usdt → b3 < s.min_balance_usdt
      → (va = some 0 ∨ va = none ∨ ok = true)
      → (check_balance_sufficient now3 b3 va ok pnl
          (check_balance_sufficient now2 b2 va ok pnl
            (check_balance_sufficient now1 b1 va ok pnl s).1).1).1.is_running = false
        ∧ (check_balance_sufficient now3 b3 va ok pnl
            (check_balance_sufficient now2 b2 va ok pnl
              (check_balance_sufficient now1 b1 va ok pnl s).1).1).1.position_side = none) := by
  have hreal : ∀ (s : BotState) (now : ℚ), balance_check_interval ≤ now - s.last_balance_check
      → ¬(now - s.last_balance_check < balance_check_interval) := fun _ _ h => not_lt.mpr h
  refine ⟨?_, ?_, ?_⟩
  · intro s now b va ok pnl hnow hb
    rw [check_balance_sufficient, if_neg (hreal s now hnow)]
    simp only
    rw [if_neg (not_lt.mpr hb)]
    exact ⟨rfl, rfl, rfl, rfl⟩
  · intro s now1 now2 b1 b2 va ok pnl hc hr hnow1 hnow2 hb1 hb2
    have h1 : check_balance_sufficient now1 b1 va ok pnl s
        = ({ s with account_balance := b1, last_balance_check := now1,
                    insufficient_balance_count := s.insufficient_balance_count + 1,
                    balance_sufficient := false }, false) := by
      rw [check_balance_sufficient, if_neg (hreal s now1 hnow1)]
      simp only
      rw [if_pos hb1, if_neg (by simp [hc, max_insufficient_balance])]
    rw [h1]
    have hnow2' : balance_check_interval ≤ now2 -
        ({ s with account_balance := b1, last_balance_check := now1,
                  insufficient_balance_count := s.insufficient_balance_count + 1,
                  balance_sufficient := false } : BotState).last_balance_check := hnow2
    rw [check_balance_sufficient, if_neg (hreal _ now2 hnow2')]
    simp only
    rw [if_neg (not_lt.mpr hb2)]
    exact ⟨rfl, hr⟩
  · intro s now1 now2 now3 b1 b2 b3 va ok pnl hc hnow1 hnow2 hnow3 hb1 hb2 hb3 hclose
    have h1 : check_balance_sufficient now1 b1 va ok pnl s
        = ({ s with account_balance := b1, last_balance_check := now1,
                    insufficient_balance_count := s.insufficient_balance_count + 1,
                    balance_sufficient := false }, false) := by
      rw [check_balance_sufficient, if_neg (hreal s now1 hnow1)]
      simp only
      rw [if_pos hb1, if_neg (by simp [hc, max_insufficient_balance])]
    set s1 : BotState := { s with account_balance := b1, last_balance_check := now1,
                                  insufficient_balance_count := s.insufficient_balance_count + 1,
                                  balance_sufficient := false } with hs1
    have h2 : check_balance_sufficient now2 b2 va ok pnl s1
        = ({ s1 with account_balance := b2, last_balance_check := now2,
                     insufficient_balance_count := s1.insufficient_balance_count + 1,
                     balance_sufficient := false }, false) := by
      rw [check_balance_sufficient, if_neg (hreal s1 now2 hnow2)]
      simp only
      rw [if_pos hb2, if_neg (by simp [hs1, hc, max_insufficient_balance])]
    set s2 : BotState := { s1 with account_balance := b2, last_balance_check := now2,
                                   insufficient_balance_count := s1.insufficient_balance_count + 1,
                                   balance_sufficient := false } with hs2
    have hcount2 : s2.insufficient_balance_count = 2 := by simp [hs2, hs1, hc]
    rw [h1, h2]
    rw [check_balance_sufficient, if_neg (hreal s2 now3 hnow3)]
    simp only
    rw [if_pos hb3, if_pos (by simp [hcount2, max_insufficient_balance])]
    exact stop_due_clears va ok pnl _ hclose

theorem claim_balance_circuit_breaker_witness :
    (check_balance_sufficient 500 25 none true 0
      { insufficient_balance_count := 2, is_running := true, position_side := some Side.long,
        balance_sufficient := false, account_balance := 5, last_balance_check := 0,
        entry_price := 100, unrealized_pnl := 0, total_pnl := 0, consecutive_losses := 0,
        min_balance_usdt := 20 }).1.insufficient_balance_count = 0
    ∧ (check_balance_sufficient 740 25 none true 0
        (check_balance_sufficient 500 5 none true 0
          { insufficient_balance_count := 0, is_running := true, position_side := some Side.long,
            balance_sufficient := true, account_balance := 30, last_balance_check := 0,
            entry_price := 100, unrealized_pnl := 0, total_pnl := 0, consecutive_losses := 0,
            min_balance_usdt := 20 }).1).1.is_running = true
    ∧ (check_balance_sufficient 740 5 none true 0
        (check_balance_sufficient 620 5 none true 0
          (check_balance_sufficient 500 5 none true 0
            { insufficient_balance_count := 0, is_running := true, position_side := some Side.long,
              balance_sufficient := true, account_balance := 30, last_balance_check := 0,
              entry_price := 100, unrealized_pnl := 0, total_pnl := 0, consecutive_losses := 0,
              min_balance_usdt := 20 }).1).1).1.is_running = false := by
  refine ⟨?_, ?_, ?_⟩
  · exact (claim_balance_circuit_breaker.1 _ 500 25 none true 0 (by norm_num [balance_check_interval])
      (by norm_num)).1
  · exact (claim_balance_circuit_breaker.2.1 _ 500 740 5 25 none true 0 rfl rfl
      (by norm_num [balance_check_interval]) (by norm_num [balance_check_interval])
      (by norm_num) (by norm_num)).2
  · exact (claim_balance_circuit_breaker.2.2 _ 500 620 740 5 5 5 none true 0 rfl
      (by norm_num [balance_check_interval]) (by norm_num [balance_check_interval])
      (by norm_num [balance_check_interval]) (by norm_num) (by norm_num) (by norm_num)
      (Or.inr (Or.inl rfl))).1

/-- A kline as used by `BotCore._fetch_simple_candle_data`: index 0 is the
candle time (`int(latest_kline[0])`), index 4 the close price. -/
structure Kline where
  candle_time : ℤ
  close_price : ℚ
  deriving DecidableEq, Repr

/-- The fields of `BotCore` touched by the candle fetch (bot_core.py,
lines 81 and 119): the rolling window and the last recorded candle time. -/
structure CandleState where
  klines_data : List Kline
  last_candle_time : ℤ
  deriving DecidableEq, Repr

/-- `BotCore._fetch_simple_candle_data` (bot_core.py, lines 427-467).
`recent_klines` is the venue response (`limit=2`).  A strictly newer candle
time evicts the oldest window entry once the window holds 50, appends the
new candle and runs `_analyze_and_execute_simple_signal` once; an unchanged
(or older) candle time overwrites the last window entry in place.  Returns
the new state and the number of signal evaluations triggered. -/
def fetch_simple_candle_data (recent_klines : List Kline) (s : CandleState) :
    CandleState × ℕ :=
  match recent_klines.getLast? with
  | none => (s, 0)
  | some latest_kline =>
    if latest_kline.candle_time > s.last_candle_time then
      let kd := if s.klines_data.length ≥ 50 then s.klines_data.tail else s.klines_data
      ({ klines_data := kd ++ [latest_kline],
         last_candle_time := latest_kline.candle_time }, 1)
    else
      if s.klines_data ≠ [] then
        ({ s with klines_data := s.klines_data.dropLast ++ [latest_kline] }, 0)
      else (s, 0)

/-- C5: candle dedupe.  A fetched candle whose time equals the last recorded
candle time replaces the last window element in place, keeps the window
length and triggers no signal evaluation; a strictly greater time appends
(evicting the head once the window holds 50, so a window of at most 50
entries never grows past 50) and triggers exactly one signal evaluation. -/
theorem claim_candle_dedupe (recent : List Kline) (lk : Kline) (s : CandleState)
    (hlast : recent.getLast? = some lk) :
    (lk.candle_time = s.last_candle_time → s.klines_data ≠ []
      → fetch_simple_candle_data recent s
          = ({ s with klines_data := s.klines_data.dropLast ++ [lk] }, 0)
        ∧ (fetch_simple_candle_data recent s).1.klines_data.length = s.klines_data.length
        ∧ (fetch_simple_candle_data recent s).1.last_candle_time = s.last_candle_time)
    ∧ (lk.candle_time > s.last_candle_time
      → fetch_simple_candle_data recent s
          = ({ klines_data :=
                 (if s.klines_data.length ≥ 50 then s.klines_data.tail else s.klines_data)
                   ++ [lk],
               last_candle_time := lk.candle_time }, 1)
        ∧ (fetch_simple_candle_data recent s).2 = 1
        ∧ (s.klines_data.length ≤ 50
            → (fetch_simple_candle_data recent s).1.klines_data.length ≤ 50)) := by
  constructor
  · intro heq hne
    have hfetch : fetch_simple_candle_data recent s
        = ({ s with klines_data := s.klines_data.dropLast ++ [lk] }, 0) := by
      rw [fetch_simple_candle_data, hlast]
      simp only
      rw [if_neg (by rw [heq]; exact lt_irrefl _), if_pos hne]
    refine ⟨hfetch, ?_, ?_⟩
    · rw [hfetch]
      simp only
      rw [List.length_append, List.length_dropLast, List.length_singleton]
      have := List.length_pos.mpr hne
      omega
    · rw [hfetch]
  · intro hgt
    have hfetch : fetch_simple_candle_data recent s
        = ({ klines_data :=
               (if s.klines_data.length ≥ 50 then s.klines_data.tail else s.klines_data)
                 ++ [lk],
             last_candle_time := lk.candle_time }, 1) := by
      rw [fetch_simple_candle_data, hlast]
      simp only
      rw [if_pos hgt]
    refine ⟨hfetch, by rw [hfetch], ?_⟩
    intro hlen
    rw [hfetch]
    simp only
    by_cases h50 : s.klines_data.length ≥ 50
    · rw [if_pos h50, List.length_append, List.length_tail, List.length_singleton]
      omega
    · rw [if_neg h50, List.length_append, List.length_singleton]
      omega

theorem claim_candle_dedupe_witness :
    fetch_simple_candle_data
        [{ candle_time := 900, close_price := 101 }, { candle_time := 1800, close_price := 102 }]
        { klines_data := [{ candle_time := 900, close_price := 100 },
                          { candle_time := 1800, close_price := 101 }],
          last_candle_time := 1800 }
      = ({ klines_data := [{ candle_time := 900, close_price := 100 },
                           { candle_time := 1800, close_price := 102 }],
           last_candle_time := 1800 }, 0)
    ∧ (fetch_simple_candle_data
        [{ candle_time := 1800, close_price := 102 }, { candle_time := 2700, close_price := 103 }]
        { klines_data := [{ candle_time := 900, close_price := 100 },
                          { candle_time := 1800, close_price := 102 }],
          last_candle_time := 1800 }).2 = 1 := by
  constructor
  · exact ((claim_candle_dedupe
      [{ candle_time := 900, close_price := 101 }, { candle_time := 1800, close_price := 102 }]
      { candle_time := 1800, close_price := 102 }
      { klines_data := [{ candle_time := 900, close_price := 100 },
                        { candle_time := 1800, close_price := 101 }],
        last_candle_time := 1800 } rfl).1 rfl (by simp)).1
  · exact ((claim_candle_dedupe
      [{ candle_time := 1800, close_price := 102 }, { candle_time := 2700, close_price := 103 }]
      { candle_time := 2700, close_price := 103 }
      { klines_data := [{ candle_time := 900, close_price := 100 },
                        { candle_time := 1800, close_price := 102 }],
        last_candle_time := 1800 } rfl).2 (by norm_num)).2.1

/-- `kline_fetch_interval = 300` (bot_core.py, line 111). -/
def kline_fetch_interval : ℚ := 300

/-- `BotCore._get_timeframe_seconds` (bot_core.py, lines 133-140). -/
def get_timeframe_seconds (timeframe : String) : ℕ :=
  (([("1m", 60), ("3m", 180), ("5m", 300), ("15m", 900), ("30m", 1800),
     ("1h", 3600), ("2h", 7200), ("4h", 14400), ("6h", 21600),
     ("8h", 28800), ("12h", 43200), ("1d", 86400)] : List (String × ℕ)).lookup
    timeframe).getD 900

/-- One iteration of `BotCore._simple_candle_monitor` (bot_core.py, lines
385-414) after waking at time `wake`: when the previous fetch is less than
`kline_fetch_interval` seconds old the iteration `continue`s without
fetching; otherwise `_fetch_simple_candle_data` runs and `last_kline_fetch`
is set to the wake time.  Returns the new `last_kline_fetch` and whether a
fetch happened. -/
def candle_monitor_iteration (last_kline_fetch wake : ℚ) : ℚ × Bool :=
  if wake - last_kline_fetch < kline_fetch_interval then (last_kline_fetch, false)
  else (wake, true)

/-- The candle monitor loop woken at the successive candle-close boundaries
`wake, wake + tf, wake + 2 tf, ...` (`_calculate_next_candle_close`,
bot_core.py, lines 416-425): collects the boundaries at which a fetch
actually ran. -/
def monitor_fetch_times (tf : ℚ) : ℕ → ℚ → ℚ → List ℚ
  | 0, _, _ => []
  | n + 1, wake, last_kline_fetch =>
    let step := candle_monitor_iteration last_kline_fetch wake
    (if step.2 then [wake] else []) ++ monitor_fetch_times tf n (wake + tf) step.1

theorem monitor_fetch_times_ge (tf : ℚ) (htf : 0 < tf) :
    ∀ (n : ℕ) (wake lf : ℚ) (t : ℚ), t ∈ monitor_fetch_times tf n wake lf → wake ≤ t := by
  intro n
  induction n with
  | zero => intro wake lf t ht; simp [monitor_fetch_times] at ht
  | succ m ih =>
    intro wake lf t ht
    rw [monitor_fetch_times] at ht
    rcases List.mem_append.mp ht with h | h
    · rcases Decidable.em ((candle_monitor_iteration lf wake).2 = true) with hs | hs
      · rw [if_pos hs] at h
        rw [List.mem_singleton.mp h]
      · rw [if_neg hs] at h
        simp at h
    · have := ih (wake + tf) (candle_monitor_iteration lf wake).1 t h
      linarith

/-- C9 (implicit): the candle loop enforces a 300-second minimum interval
between successive candle fetches; after waking at a candle-close boundary
the fetch is skipped entirely when the previous fetch happened less than
300 seconds earlier.  Consequently, for a timeframe shorter than 300
seconds, the boundary one timeframe after a fetch is never a fetch time, so
the candle closing there never triggers a signal evaluation; the 1m and 3m
timeframes (60 and 180 seconds) are such timeframes. -/
theorem claim_candle_fetch_interval (lf wake tf b : ℚ) (n : ℕ)
    (hskip : wake - lf < kline_fetch_interval)
    (htf : 0 < tf) (htf300 : tf < kline_fetch_interval) :
    candle_monitor_iteration lf wake = (lf, false)
    ∧ (b + tf) ∉ monitor_fetch_times tf n (b + tf) b
    ∧ get_timeframe_seconds ("1m") = 60
    ∧ get_timeframe_seconds ("3m") = 180
    ∧ ((60 : ℚ) < kline_fetch_interval ∧ (180 : ℚ) < kline_fetch_interval) := by
  refine ⟨by rw [candle_monitor_iteration, if_pos hskip], ?_, by decide, by decide,
    by norm_num [kline_fetch_interval], by norm_num [kline_fetch_interval]⟩
  cases n with
  | zero => simp [monitor_fetch_times]
  | succ m =>
    intro hmem
    rw [monitor_fetch_times] at hmem
    have hstep : candle_monitor_iteration b (b + tf) = (b, false) := by
      rw [candle_monitor_iteration,
        if_pos (show b + tf - b < kline_fetch_interval by rw [add_sub_cancel_left]; exact htf300)]
    rw [hstep] at hmem
    simp at hmem
    have := monitor_fetch_times_ge tf htf m (b + tf + tf) b _ hmem
    linarith

theorem claim_candle_fetch_interval_witness :
    candle_monitor_iteration 0 100 = (0, false)
    ∧ ((0 : ℚ) + 60) ∉ monitor_fetch_times 60 5 (0 + 60) 0 := by
  have h := claim_candle_fetch_interval 0 100 60 0 5
    (by norm_num [kline_fetch_interval]) (by norm_num)
    (by norm_num [kline_fetch_interval])
  exact ⟨h.1, h.2.1⟩

end BotCore

namespace SimpleBotManager

/-- `min_required = 20.0` in `SimpleBotManager.start_bot_for_user`
(bot_manager.py, line 216). -/
def min_required : ℚ := 20

/-- The reasons for which the pre-flight balance check of
`SimpleBotManager.start_bot_for_user` (bot_manager.py, lines 216-240)
rejects a start request. -/
inductive PreflightError where
  | insufficient_percentage
  | insufficient_fixed
  | below_minimum
  deriving DecidableEq, Repr

/-- The pre-flight balance check of `SimpleBotManager.start_bot_for_user`
(bot_manager.py, lines 216-240): percentage mode (order_size = 0) requires
balance * 0.90 >= 10, fixed mode requires balance >= order_size, and both
then require balance >= min_required (20 USDT).  Returns the first failing
check's error, or `none` when the check passes. -/
def preflight_balance_check (order_size current_balance : ℚ) : Option PreflightError :=
  if order_size = 0 then
    if current_balance * (90 / 100) < 10 then some .insufficient_percentage
    else if current_balance < min_required then some .below_minimum
    else none
  else
    if current_balance < order_size then some .insufficient_fixed
    else if current_balance < min_required then some .below_minimum
    else none

/-- Outcome of a successful start: the agent was constructed and registered
(`self.bot_instances[uid] = bot_core`, bot_manager.py line 255). -/
structure StartOk where
  agent_registered : Bool
  balance_at_start : ℚ
  deriving DecidableEq, Repr

/-- `SimpleBotManager.start_bot_for_user` (bot_manager.py, lines 139-336),
restricted to the balance-relevant control flow: the control-plane rate
limit and the credential lookups are oracles (in the source they precede
the balance check and reject with their own errors), a failing pre-flight
check returns a structured error without constructing an agent, and only
the success path constructs and registers one. -/
def start_bot_for_user (rate_limit_ok creds_ok : Bool)
    (order_size current_balance : ℚ) : Except PreflightError StartOk :=
  if ¬rate_limit_ok then .error .below_minimum
  else if ¬creds_ok then .error .below_minimum
  else
    match preflight_balance_check order_size current_balance with
    | some e => .error e
    | none => .ok { agent_registered := true, balance_at_start := current_balance }

/-- Number of agents constructed and registered by a start outcome. -/
def registered_agents (r : Except PreflightError StartOk) : ℕ :=
  match r with
  | .ok _ => 1
  | .error _ => 0

theorem preflight_none_iff (os b : ℚ) :
    preflight_balance_check os b = none
      ↔ ((os = 0 → 10 ≤ (90 / 100) * b) ∧ (os ≠ 0 → os ≤ b) ∧ min_required ≤ b) := by
  unfold preflight_balance_check
  split_ifs with h0 h1 h2 h3 h4
  · refine iff_of_false (by simp) ?_
    rintro ⟨ha, -, -⟩
    have := ha h0
    rw [mul_comm] at this
    linarith
  · refine iff_of_false (by simp) ?_
    rintro ⟨-, -, hc⟩
    linarith
  · refine iff_of_true rfl ⟨fun _ => ?_, fun hne => absurd h0 hne, not_lt.mp h2⟩
    rw [mul_comm]
    exact not_lt.mp h1
  · refine iff_of_false (by simp) ?_
    rintro ⟨-, hb, -⟩
    have := hb h0
    linarith
  · refine iff_of_false (by simp) ?_
    rintro ⟨-, -, hc⟩
    linarith
  · exact iff_of_true rfl ⟨fun h => absurd h h0, fun _ => not_lt.mp h3, not_lt.mp h4⟩

/-- C3: pre-flight balance check on bot start.  Percentage mode passes iff
0.90 * balance >= 10, fixed mode passes iff balance >= order_size, and both
modes additionally require balance >= 20; a rejected start returns a
structured error and registers no agent.  Percentage mode with balance 500
computes usable = 450 and passes. -/
theorem claim_preflight_balance_check (os b : ℚ) :
    (registered_agents (start_bot_for_user true true os b) = 1
      ↔ ((os = 0 → 10 ≤ (90 / 100) * b) ∧ (os ≠ 0 → os ≤ b) ∧ min_required ≤ b))
    ∧ (∀ e, start_bot_for_user true true os b = Except.error e
        → registered_agents (start_bot_for_user true true os b) = 0)
    ∧ (500 : ℚ) * (90 / 100) = 450
    ∧ start_bot_for_user true true 0 500
        = Except.ok { agent_registered := true, balance_at_start := 500 } := by
  refine ⟨?_, ?_, by norm_num, ?_⟩
  · rw [← preflight_none_iff]
    rcases h : preflight_balance_check os b with _ | e
    · simp [start_bot_for_user, registered_agents, h]
    · simp [start_bot_for_user, registered_agents, h]
  · intro e he
    rw [he]
    rfl
  · have h : preflight_balance_check 0 500 = none := by
      norm_num [preflight_balance_check, min_required]
    simp [start_bot_for_user, h]

theorem claim_preflight_balance_check_witness :
    registered_agents (start_bot_for_user true true 0 500) = 1 := by
  have h := (claim_preflight_balance_check 0 500).1
  exact h.mpr ⟨fun _ => by norm_num, fun h' => absurd rfl h', by norm_num [min_required]⟩

end SimpleBotManager

namespace BinanceRateLimiter

/-- `RateLimit` (binance_client.py, lines 15-19). -/
structure RateLimit where
  requests_per_minute : ℕ
  requests_per_second : ℕ
  weight : ℕ
  deriving DecidableEq, Repr

/-- The endpoint classes keyed by `BinanceRateLimiter.limits`
(binance_client.py, lines 25-31); any other string falls back to
`default` via `self.limits.get(endpoint_type, self.limits['default'])`. -/
inductive EndpointType where
  | default
  | order
  | account
  | position
  | balance
  deriving DecidableEq, Repr

/-- `BinanceRateLimiter.__init__` (binance_client.py, lines 24-31). -/
def limits : EndpointType → RateLimit
  | .default => { requests_per_minute := 1200, requests_per_second := 10, weight := 1 }
  | .order => { requests_per_minute := 50, requests_per_second := 5, weight := 5 }
  | .account => { requests_per_minute := 600, requests_per_second := 5, weight := 5 }
  | .position => { requests_per_minute := 300, requests_per_second := 3, weight := 2 }
  | .balance => { requests_per_minute := 300, requests_per_second := 3, weight := 2 }

/-- One key's paired deques `request_times` / `weights_used`
(binance_client.py, lines 33-34), oldest first; entries are appended and
pruned in lockstep, so they are modelled as one list of
(timestamp, weight) pairs. -/
structure KeyWindow where
  entries : List (ℚ × ℕ)
  deriving DecidableEq, Repr

/-- The pruning loop of `wait_if_needed` (binance_client.py, lines 44-48):
pop entries from the front while the front timestamp is older than the
cutoff. -/
def prune (cutoff : ℚ) (l : List (ℚ × ℕ)) : List (ℚ × ℕ) :=
  l.dropWhile (fun e => e.1 < cutoff)

/-- `weight_in_minute = sum(self.weights_used[key])`
(binance_client.py, line 51). -/
def weight_in_minute (l : List (ℚ × ℕ)) : ℕ := (l.map Prod.snd).sum

/-- `requests_in_second` (binance_client.py, line 59): entries of the pruned
window whose timestamp is within 1 second of `current_time`. -/
def requests_in_second (current_time : ℚ) (l : List (ℚ × ℕ)) : ℕ :=
  (l.filter (fun e => current_time - e.1 < 1)).length

/-- One sequential execution of `BinanceRateLimiter.wait_if_needed`
(binance_client.py, lines 36-65) for a single (user, class) key, called at
wall-clock time `current_time`.  Mirrors the source exactly: prune the
window at `current_time - 60`; if the weight sum reaches the per-minute
budget, sleep `60 - (current_time - oldest)` when that is positive (the
window is not re-checked afterwards); if the per-second count reaches the
per-second cap, sleep a further 1.1 seconds; finally append the new request
stamped with the `current_time` captured on entry (not the post-sleep
clock).  Returns the new window and the wall-clock time at which the call
returns. -/
def wait_if_needed (limit : RateLimit) (current_time : ℚ) (w : KeyWindow) :
    KeyWindow × ℚ :=
  let pruned := prune (current_time - 60) w.entries
  let minute_sleep : ℚ :=
    if weight_in_minute pruned ≥ limit.requests_per_minute then
      match pruned with
      | [] => 0
      | e :: _ =>
        let wait_time := 60 - (current_time - e.1)
        if wait_time > 0 then wait_time else 0
    else 0
  let second_sleep : ℚ :=
    if requests_in_second current_time pruned ≥ limit.requests_per_second then 11 / 10 else 0
  ({ entries := pruned ++ [(current_time, limit.weight)] },
   current_time + minute_sleep + second_sleep)

/-- Run a sequence of sequential calls to `wait_if_needed` for one key,
each at the given wall-clock time.  `feasible` records that every call
starts no earlier than the return of the previous one, so the timing of the
sequence is realizable by a single caller. -/
structure TraceResult where
  window : KeyWindow
  ready_time : ℚ
  feasible : Bool
  deriving DecidableEq, Repr

def run_calls (limit : RateLimit) (calls : List ℚ) : TraceResult :=
  calls.foldl
    (fun st t =>
      let step := wait_if_needed limit t st.window
      { window := step.1, ready_time := step.2,
        feasible := st.feasible && decide (st.ready_time ≤ t) })
    { window := { entries := [] }, ready_time := 0, feasible := true }

/-- Number of requests recorded with timestamps inside the closed window
[lo, hi]. -/
def recorded_in_window (lo hi : ℚ) (w : KeyWindow) : ℕ :=
  (w.entries.filter (fun e => lo ≤ e.1 ∧ e.1 ≤ hi)).length

theorem weight_in_minute_const (c : ℕ) :
    ∀ l : List (ℚ × ℕ), (∀ e ∈ l, e.2 = c) → weight_in_minute l = c * l.length := by
  intro l
  induction l with
  | nil => intro _; simp [weight_in_minute]
  | cons e tl ih =>
    intro h
    have he : e.2 = c := h e (List.mem_cons_self e tl)
    have htl := ih (fun x hx => h x (List.mem_cons_of_mem e hx))
    simp only [weight_in_minute, List.map_cons, List.sum_cons, List.length_cons] at *
    rw [he, htl]
    ring

/-- Counterexample trace for the order-class request cap: ten freely
admitted order calls 1 s apart, an eleventh at t = 10 that sleeps out the
budget (waking at t = 60) yet records its pre-sleep timestamp 10, and a
twelfth at t = 60 admitted without any sleep because the oldest retained
entry is then exactly 60 s old.  Eleven requests end up recorded inside the
60-second window [1, 61]. -/
def order_cap_trace : List ℚ :=
  [0, 1, 2, 3, 4, 5, 6, 7, 8, 9, 10, 60]

/-- C10 counterexample: the claimed bound of budget / weight = 10 order
admissions per trailing 60-second window fails on `order_cap_trace`, a
realizable sequential call sequence that records 11 order requests inside
the window [1, 61]. -/
theorem claim_order_request_cap_counterexample :
    (run_calls (limits .order) order_cap_trace).feasible = true
    ∧ recorded_in_window 1 61
        (run_calls (limits .order) order_cap_trace).window = 11
    ∧ (limits .order).requests_per_minute / (limits .order).weight < 11 := by
  refine ⟨?_, ?_, by norm_num [limits]⟩ <;>
    norm_num [run_calls, wait_if_needed, prune, weight_in_minute, requests_in_second,
      recorded_in_window, order_cap_trace, limits, List.dropWhile, List.filter, List.foldl]

/-- C10 (amended): the rate limiter compares the per-minute budget against
the sum of recorded per-request weights; for the order class (weight 5,
budget 50) an admission finds the weight budget not yet exhausted iff its
pruned window holds at most 9 = budget / weight - 1 prior requests, so at
most 10 requests are ever admitted without waiting against one window; the
free-admission cap of each class is budget / weight (order 10,
account 120, balance 150, position 150), not the budget itself.  Admissions
beyond the cap are delayed but still recorded, so a trailing window may
hold more (see the counterexample). -/
theorem claim_order_weight_cap (t : ℚ) (w : KeyWindow)
    (hw : ∀ e ∈ prune (t - 60) w.entries, e.2 = (limits .order).weight) :
    (weight_in_minute (prune (t - 60) w.entries) < (limits .order).requests_per_minute
      ↔ (prune (t - 60) w.entries).length ≤ 9)
    ∧ (limits .order).requests_per_minute / (limits .order).weight = 10
    ∧ (limits .account).requests_per_minute / (limits .account).weight = 120
    ∧ (limits .balance).requests_per_minute / (limits .balance).weight = 150
    ∧ (limits .position).requests_per_minute / (limits .position).weight = 150 := by
  refine ⟨?_, by norm_num [limits], by norm_num [limits], by norm_num [limits],
    by norm_num [limits]⟩
  rw [weight_in_minute_const (limits .order).weight _ hw]
  show 5 * (prune (t - 60) w.entries).length < 50 ↔ _
  omega

theorem claim_order_weight_cap_witness :
    weight_in_minute (prune ((70 : ℚ) - 60) ({ entries := [(65, 5)] } : KeyWindow).entries)
        < (limits .order).requests_per_minute
      ↔ (prune ((70 : ℚ) - 60) ({ entries := [(65, 5)] } : KeyWindow).entries).length ≤ 9 :=
  (claim_order_weight_cap 70 { entries := [(65, 5)] }
    (by
      intro e he
      simp only [prune, List.dropWhile] at he
      norm_num at he
      rw [he]
      norm_num [limits])).1

/-- The trace refuting the per-minute budget bound: ten sparse free order
admissions 7 s apart (timestamps 0..63), two more free-or-delayed calls at
64 and 65, then nine cycles; cycle k makes five calls at 67 + 7k (each
admitted with zero minute-sleep, because the oldest retained entry sits
exactly 60 s back) and one call at 68 + 7k that sleeps 6 s and records its
pre-sleep timestamp.  The nine cycles alone record 54 order requests with
timestamps inside the 60-second window [67, 127], against a budget of 50. -/
def budget_violation_trace : List ℚ :=
  [0, 7, 14, 21, 28, 35, 42, 49, 56, 63, 64, 65,
   67, 67, 67, 67, 67, 68,
   74, 74, 74, 74, 74, 75,
   81, 81, 81, 81, 81, 82,
   88, 88, 88, 88, 88, 89,
   95, 95, 95, 95, 95, 96,
   102, 102, 102, 102, 102, 103,
   109, 109, 109, 109, 109, 110,
   116, 116, 116, 116, 116, 117,
   123, 123, 123, 123, 123, 124]

set_option maxRecDepth 8000 in
set_option maxHeartbeats 3200000 in
/-- C4: the rate limiter bound is violated by the code.  On the realizable
sequential trace `budget_violation_trace` the limiter records 54 order-class
requests with timestamps inside the trailing 60-second window [67, 127],
exceeding the order class's per-minute budget of 50: after a budget sleep
the request is recorded without re-checking, and an admission whose oldest
retained window entry is exactly 60 s old performs no sleep at all. -/
theorem claim_rate_limiter_bound_violated :
    (run_calls (limits .order) budget_violation_trace).feasible = true
    ∧ recorded_in_window 67 127
        (run_calls (limits .order) budget_violation_trace).window = 54
    ∧ (limits .order).requests_per_minute < 54 := by
  refine ⟨?_, ?_, by norm_num [limits]⟩ <;>
    norm_num [run_calls, wait_if_needed, prune, weight_in_minute, requests_in_second,
      recorded_in_window, budget_violation_trace, limits, List.dropWhile, List.filter,
      List.foldl]

end BinanceRateLimiter

namespace BatchFirebaseUpdater

/-- Overwrite the value of key `k` in a Python-dict-like association list,
appending when the key is absent. -/
def dict_set {α : Type} (m : List (String × α)) (k : String) (v : α) :
    List (String × α) :=
  if (m.lookup k).isSome then m.map (fun p => if p.1 = k then (k, v) else p)
  else m ++ [(k, v)]

/-- Python `base.update(upd)`: overwrite each key of `upd` into `base`
(last write per field wins). -/
def dict_merge {α : Type} (base upd : List (String × α)) : List (String × α) :=
  upd.foldl (fun acc p => dict_set acc p.1 p.2) base

/-- `BatchFirebaseUpdater.__init__` (bot_manager.py, lines 55-58): the
pending per-user update maps and the last flush timestamp.  `α` is the type
of field values. -/
structure BatchState (α : Type) where
  pending_updates : List (String × List (String × α))
  last_batch_time : ℚ
  deriving DecidableEq, Repr

/-- `BatchFirebaseUpdater.queue_update` (bot_manager.py, lines 60-64):
create the user's entry if missing, then merge the update into it. -/
def queue_update {α : Type} (user_id : String) (update_data : List (String × α))
    (s : BatchState α) : BatchState α :=
  let cur := (s.pending_updates.lookup user_id).getD []
  { s with pending_updates :=
      dict_set s.pending_updates user_id (dict_merge cur update_data) }

/-- The flat multi-path update map built inside `flush_all`
(bot_manager.py, lines 81-84): one path per (user, field) pair. -/
def build_updates {α : Type} (pending : List (String × List (String × α))) :
    List (String × α) :=
  pending.foldl
    (fun acc p => acc ++ p.2.map (fun q => ("users/" ++ p.1 ++ "/" ++ q.1, q.2))) []

/-- `BatchFirebaseUpdater.flush_all` (bot_manager.py, lines 72-94).
`write_ok` is the oracle for whether the single batched store write
(`firebase_db.reference().update(updates)`) succeeds; on an exception the
`clear()` and timestamp assignment after it are never reached and the
handler leaves the state untouched.  Returns the new state and the number
of store writes issued (a failed write is still an issued write). -/
def flush_all {α : Type} [DecidableEq α] (write_ok : Bool) (now : ℚ) (s : BatchState α) :
    BatchState α × ℕ :=
  if s.pending_updates = [] then (s, 0)
  else
    let updates := build_updates s.pending_updates
    if updates = [] then ({ pending_updates := [], last_batch_time := now }, 0)
    else if write_ok then ({ pending_updates := [], last_batch_time := now }, 1)
    else (s, 1)

/-- C6: batch flush semantics.  Flushing with an empty pending map issues no
store write and changes nothing; after any successful flush the pending map
is empty, so a second flush with no new updates in between is a no-op that
issues no write; a failed store write leaves the pending map and the
last-batch timestamp unchanged, so the next flush retries the same batch. -/
theorem claim_batch_flush {α : Type} [DecidableEq α] (s : BatchState α) (now now2 : ℚ)
    (ok2 : Bool) :
    (s.pending_updates = [] → flush_all true now s = (s, 0))
    ∧ (flush_all ok2 now2 (flush_all true now s).1 = ((flush_all true now s).1, 0)
        ∧ (flush_all ok2 now2 (flush_all true now s).1).2 = 0)
    ∧ (s.pending_updates ≠ [] → build_updates s.pending_updates ≠ []
        → flush_all false now s = (s, 1)
          ∧ (flush_all false now s).1.pending_updates = s.pending_updates
          ∧ (flush_all false now s).1.last_batch_time = s.last_batch_time) := by
  have hempty : ∀ (ok : Bool) (t : ℚ) (u : BatchState α), u.pending_updates = []
      → flush_all ok t u = (u, 0) := by
    intro ok t u hu
    rw [flush_all, if_pos hu]
  refine ⟨hempty true now s, ?_, ?_⟩
  · have hcleared : ((flush_all true now s).1).pending_updates = [] := by
      rw [flush_all]
      by_cases h1 : s.pending_updates = []
      · rw [if_pos h1]
        exact h1
      · rw [if_neg h1]
        by_cases h2 : build_updates s.pending_updates = []
        · rw [if_pos h2]
        · rw [if_neg h2, if_pos rfl]
    have h := hempty ok2 now2 _ hcleared
    exact ⟨h, by rw [h]⟩
  · intro hne hbu
    have h : flush_all false now s = (s, 1) := by
      rw [flush_all, if_neg hne]
      simp only
      rw [if_neg hbu, if_neg (by simp)]
    exact ⟨h, by rw [h], by rw [h]⟩

theorem claim_batch_flush_witness :
    flush_all true 200 (flush_all true 190
        (queue_update ("u1") [("bot_active", (1 : ℤ))]
          { pending_updates := [], last_batch_time := 0 })).1
      = ((flush_all true 190
          (queue_update ("u1") [("bot_active", (1 : ℤ))]
            { pending_updates := [], last_batch_time := 0 })).1, 0)
    ∧ flush_all false 190
        (queue_update ("u1") [("bot_active", (1 : ℤ))]
          { pending_updates := [], last_batch_time := 0 })
      = (queue_update ("u1") [("bot_active", (1 : ℤ))]
          { pending_updates := [], last_batch_time := 0 }, 1) := by
  constructor
  · exact (claim_batch_flush
      (queue_update ("u1") [("bot_active", (1 : ℤ))]
        { pending_updates := [], last_batch_time := 0 }) 190 200 true).2.1.1
  · exact ((claim_batch_flush
      (queue_update ("u1") [("bot_active", (1 : ℤ))]
        { pending_updates := [], last_batch_time := 0 }) 190 200 true).2.2
      (by simp [queue_update, dict_set, dict_merge])
      (by simp [queue_update, dict_set, dict_merge, build_updates])).1

end BatchFirebaseUpdater

namespace PriceManager

/-- The price cache of the `PriceManager` singleton (binance_client.py,
lines 85-86): `prices` and `price_timestamps`, both keyed by symbol. -/
structure PriceState where
  prices : List (String × ℚ)
  price_timestamps : List (String × ℚ)
  deriving DecidableEq, Repr

/-- `PriceManager.get_price` (binance_client.py, lines 202-210): return the
cached price when the symbol is present and its timestamp (0 when missing)
is strictly less than 60 seconds old, otherwise report a miss (`None`). -/
def get_price (s : PriceState) (now : ℚ) (symbol : String) : Option ℚ :=
  match s.prices.lookup symbol with
  | some price =>
    if now - ((s.price_timestamps.lookup symbol).getD 0) < 60 then some price
    else none
  | none => none

end PriceManager

namespace BinanceClient

open BinanceRateLimiter in
/-- `BinanceClient.get_market_price` (binance_client.py, lines 389-404):
try `PriceManager.get_price`; on a miss (or a falsy cached price 0) fall
back to a REST ticker request paced by
`rate_limiter.wait_if_needed('default', ...)`.  `rest_price` is the venue's
ticker response; the default-class rate window is threaded through and the
Bool reports whether the REST fallback was used. -/
def get_market_price (s : PriceManager.PriceState) (lw : KeyWindow) (now : ℚ)
    (symbol : String) (rest_price : ℚ) : ℚ × Bool × KeyWindow :=
  match PriceManager.get_price s now symbol with
  | some price =>
    if price ≠ 0 then (price, false, lw)
    else (rest_price, true, (wait_if_needed (limits .default) now lw).1)
  | none => (rest_price, true, (wait_if_needed (limits .default) now lw).1)

/-- C8: price cache staleness.  For a symbol with a cached entry,
`get_price` returns the cached price exactly when the entry's age is
strictly below 60 seconds; an entry aged 60 seconds or more is reported as
a miss; and on a miss the caller `get_market_price` issues the
rate-limited direct REST request, recording it in the default-class rate
window. -/
theorem claim_price_cache_staleness (s : PriceManager.PriceState) (now : ℚ)
    (symbol : String) (p rest : ℚ) (lw : BinanceRateLimiter.KeyWindow)
    (hp : s.prices.lookup symbol = some p) :
    (PriceManager.get_price s now symbol = some p
      ↔ now - ((s.price_timestamps.lookup symbol).getD 0) < 60)
    ∧ (60 ≤ now - ((s.price_timestamps.lookup symbol).getD 0)
        → PriceManager.get_price s now symbol = none)
    ∧ (PriceManager.get_price s now symbol = none
        → get_market_price s lw now symbol rest
            = (rest, true,
               (BinanceRateLimiter.wait_if_needed
                 (BinanceRateLimiter.limits .default) now lw).1)) := by
  refine ⟨?_, ?_, ?_⟩
  · simp only [PriceManager.get_price, hp]
    constructor
    · intro h
      by_contra hage
      rw [if_neg hage] at h
      exact Option.noConfusion h
    · intro hage
      rw [if_pos hage]
  · intro hage
    simp only [PriceManager.get_price, hp]
    rw [if_neg (not_lt.mpr hage)]
  · intro hmiss
    simp only [get_market_price, hmiss]

theorem claim_price_cache_staleness_witness :
    PriceManager.get_price
        { prices := [("BTCUSDT", 50000)], price_timestamps := [("BTCUSDT", 100)] }
        130 ("BTCUSDT") = some 50000
    ∧ PriceManager.get_price
        { prices := [("BTCUSDT", 50000)], price_timestamps := [("BTCUSDT", 100)] }
        160 ("BTCUSDT") = none := by
  constructor
  · exact (claim_price_cache_staleness
      { prices := [("BTCUSDT", 50000)], price_timestamps := [("BTCUSDT", 100)] }
      130 ("BTCUSDT") 50000 51000 { entries := [] } rfl).1.mpr (by norm_num)
  · exact (claim_price_cache_staleness
      { prices := [("BTCUSDT", 50000)], price_timestamps := [("BTCUSDT", 100)] }
      160 ("BTCUSDT") 50000 51000 { entries := [] } rfl).2.1 (by norm_num)

/-- The balance cache of one `BinanceClient` (binance_client.py, lines
273-277): the cached USDT balance, its refresh timestamp and the
single-flight flag `_balance_check_in_progress`. -/
structure BalanceCache where
  cached_balance : ℚ
  last_balance_check : ℚ
  balance_check_in_progress : Bool
  deriving DecidableEq, Repr

/-- The synchronous prefix of
`BinanceClient.get_account_balance(use_cache=False)` (binance_client.py,
lines 419-428) up to its first await.  Under asyncio this section is atomic:
a caller that finds `_balance_check_in_progress` set returns the prior
cached balance immediately (`some`) and issues no outbound call; otherwise
it claims the flag and proceeds to the outbound venue request (`none`). -/
def balance_refresh_begin (s : BalanceCache) : BalanceCache × Option ℚ :=
  if s.balance_check_in_progress then (s, some s.cached_balance)
  else ({ s with balance_check_in_progress := true }, none)

/-- The tail of `get_account_balance` after the outbound
`futures_account` call returns (binance_client.py, lines 430-453): store
the new balance and timestamp, release the flag, return the new balance. -/
def balance_refresh_finish (now new_balance : ℚ) (_s : BalanceCache) :
    BalanceCache × ℚ :=
  ({ cached_balance := new_balance, last_balance_check := now,
     balance_check_in_progress := false }, new_balance)

/-- `n` concurrent `get_account_balance(use_cache=False)` calls whose
synchronous prefixes all run before the in-flight venue request completes
(the canonical asyncio schedule for simultaneous callers): returns each
caller's prefix outcome in order. -/
def run_begins : ℕ → BalanceCache → BalanceCache × List (Option ℚ)
  | 0, s => (s, [])
  | n + 1, s =>
    let step := balance_refresh_begin s
    let rest := run_begins n step.1
    (rest.1, step.2 :: rest.2)

/-- Complete the concurrent schedule: all `n` prefixes run, then each caller
that claimed the flag performs one outbound venue call and finishes.
Returns the final cache, the per-caller results, and the number of outbound
venue calls issued. -/
def run_concurrent_get_balance (n : ℕ) (now new_balance : ℚ)
    (s : BalanceCache) : BalanceCache × List ℚ × ℕ :=
  let begins := run_begins n s
  let outbound := (begins.2.filter (fun r => r.isNone)).length
  let final := if outbound = 0 then begins.1
               else (balance_refresh_finish now new_balance begins.1).1
  (final, begins.2.map (fun r => r.getD new_balance), outbound)

theorem run_begins_inflight (n : ℕ) :
    ∀ s : BalanceCache, s.balance_check_in_progress = true
      → run_begins n s = (s, List.replicate n (some s.cached_balance)) := by
  induction n with
  | zero => intro s _; rfl
  | succ m ih =>
    intro s hs
    rw [run_begins]
    simp only [balance_refresh_begin, if_pos hs]
    rw [ih s hs]
    rfl

/-- C7: single-flight balance refresh.  A caller that arrives while a
refresh is in flight returns the prior cached value without issuing an
outbound call; and for n >= 1 concurrent `get_account_balance(use_cache =
False)` calls on one connector starting with the flag clear, exactly one
outbound venue call is issued, the first caller returns the fresh balance
and every other caller returns the prior cached value. -/
theorem claim_single_flight_balance (s : BalanceCache) (n : ℕ)
    (now new_balance : ℚ) :
    (s.balance_check_in_progress = true
      → balance_refresh_begin s = (s, some s.cached_balance))
    ∧ (s.balance_check_in_progress = false → 1 ≤ n
      → (run_concurrent_get_balance n now new_balance s).2.2 = 1
        ∧ (run_concurrent_get_balance n now new_balance s).2.1
            = new_balance :: List.replicate (n - 1) s.cached_balance) := by
  constructor
  · intro hs
    rw [balance_refresh_begin, if_pos hs]
  · intro hs hn
    obtain ⟨m, rfl⟩ : ∃ m, n = m + 1 := ⟨n - 1, (Nat.succ_pred_eq_of_pos hn).symm⟩
    have hbegins : run_begins (m + 1) s
        = ({ s with balance_check_in_progress := true },
           none :: List.replicate m (some s.cached_balance)) := by
      simp [run_begins, balance_refresh_begin, hs,
        run_begins_inflight m { s with balance_check_in_progress := true } rfl]
    constructor
    · rw [run_concurrent_get_balance, hbegins]
      simp [List.filter_replicate]
    · rw [run_concurrent_get_balance, hbegins]
      simp [List.map_replicate]

theorem claim_single_flight_balance_witness :
    (run_concurrent_get_balance 3 500 250
        { cached_balance := 100, last_balance_check := 0,
          balance_check_in_progress := false }).2.2 = 1
    ∧ (run_concurrent_get_balance 3 500 250
        { cached_balance := 100, last_balance_check := 0,
          balance_check_in_progress := false }).2.1 = [250, 100, 100] := by
  have h := (claim_single_flight_balance
    { cached_balance := 100, last_balance_check := 0,
      balance_check_in_progress := false } 3 500 250).2 rfl (by norm_num)
  exact ⟨h.1, by rw [h.2]; rfl⟩

end BinanceClient
